import Mathlib

/-!
Verification development for the voice-controlled 6-joint robot arm program.

Embedded components:
- `robot_controller.py`: user limits, command window, relative/absolute move
  validation, best-effort batch execution, and the worker loop with its
  cooperative stop flag.
- `Gui_app_Brazo.py` (`MainWindow._handle_actions`): the pending-confirmation
  gate between parsed voice actions and the controller's command queue.
- `speech_parser.py` (`parse_commands`): the regex grammar that turns
  normalized Spanish utterances into semantic tokens, embedded through a small
  backtracking regex matcher with Python `re` semantics (leftmost match,
  ordered alternation, greedy quantifiers, non-overlapping `finditer`).

Angles are modelled as rationals; all comparisons in the source are order
comparisons on decimal constants, which ℚ reproduces exactly.
-/

/-! ### Limit policy (robot_controller.py lines 51-68) -/

abbrev Pose := List ℚ

def TOLERANCE_DEG : ℚ := 5

/-- `USER_LIMITS` dict from the source; joints are 1-indexed, keys 1..6.
Out-of-range joints are given a degenerate interval (the Python dict would
raise; every caller guards `1 <= joint <= 6` first). -/
def USER_LIMITS : Nat → ℚ × ℚ
  | 1 => (0, 150)
  | 2 => (-120, 0)
  | 3 => (0, 150)
  | 4 => (-135, 135)
  | 5 => (-120, 120)
  | 6 => (-160, 160)
  | _ => (0, 0)

/-- `COMMAND_WINDOW = {j: (mn - TOLERANCE_DEG, mx + TOLERANCE_DEG) ...}`. -/
def COMMAND_WINDOW (j : Nat) : ℚ × ℚ :=
  ((USER_LIMITS j).1 - TOLERANCE_DEG, (USER_LIMITS j).2 + TOLERANCE_DEG)

/-- `_within(lim, ang)`: inclusive bounds check. -/
def within (lim : ℚ × ℚ) (ang : ℚ) : Bool :=
  decide (lim.1 ≤ ang) && decide (ang ≤ lim.2)

/-- `_candidate_final(base_angles, joint, delta)`. -/
def candidate_final (base : Pose) (joint : Nat) (delta : ℚ) : Pose :=
  base.set (joint - 1) (base.getD (joint - 1) 0 + delta)

/-- Which of the five return sites of `_validate_relative` produced the
verdict; stands in for the formatted message string. -/
inductive RelVerdict where
  | targetOutOfLimits (joint : Nat) (tgt : ℚ)
  | ok
  | windowLeniency (joint : Nat) (cur : ℚ)
  | towardRange (joint : Nat) (cur : ℚ)
  | outsideNoCorrection (joint : Nat) (cur : ℚ)
deriving DecidableEq

/-- `_validate_relative(base_angles, joint, delta)` (lines 131-181). The
source's locals `cur_ang` (current reading of the joint) and `tgt_ang`
(reading of the candidate pose) are inlined: `cur_ang = base.getD (joint-1) 0`
and `tgt_ang = (candidate_final base joint delta).getD (joint-1) 0`. -/
def validate_relative (base : Pose) (joint : Nat) (delta : ℚ) :
    Bool × RelVerdict × Option Pose :=
  if ¬ (within (USER_LIMITS joint)
      ((candidate_final base joint delta).getD (joint - 1) 0) = true) then
    (false, .targetOutOfLimits joint
      ((candidate_final base joint delta).getD (joint - 1) 0), none)
  else if within (USER_LIMITS joint) (base.getD (joint - 1) 0) = true then
    (true, .ok, some (candidate_final base joint delta))
  else if within (COMMAND_WINDOW joint) (base.getD (joint - 1) 0) = true then
    (true, .windowLeniency joint (base.getD (joint - 1) 0),
      some (candidate_final base joint delta))
  else if (USER_LIMITS joint).1 > base.getD (joint - 1) 0 ∧ delta > 0 then
    (true, .towardRange joint (base.getD (joint - 1) 0),
      some (candidate_final base joint delta))
  else if (USER_LIMITS joint).2 < base.getD (joint - 1) 0 ∧ delta < 0 then
    (true, .towardRange joint (base.getD (joint - 1) 0),
      some (candidate_final base joint delta))
  else
    (false, .outsideNoCorrection joint (base.getD (joint - 1) 0), none)

/-! ### Batch execution (robot_controller.py `_apply_actions`, `_apply_absolute`)

The hardware driver is abstracted as an oracle: for the n-th `send_angle`
call of a batch, `sendOk` says whether it returned or raised, and `readBack`
is the result of the follow-up `_read_angles` (`none` = read failed). -/

structure DriverStep where
  sendOk : Bool
  readBack : Option Pose

/-- Per-pair outcome of one iteration of a batch loop: skipped for a bad
joint index, blocked by validation, moved (write issued, settle read ok or
fallback), or write issued but the driver raised. -/
inductive PairOutcome where
  | invalidJoint
  | blocked
  | moved (tgt : ℚ)
  | driverError
deriving DecidableEq

structure BatchResult where
  writes : List (Nat × ℚ)
  outcomes : List PairOutcome
  final : Pose
deriving DecidableEq

/-- Loop body of `_apply_actions` (lines 379-404): validate against the
running base, issue `send_angle`, re-read (falling back to the computed
target), and continue with the next pair in every case. -/
def apply_actions_go (env : Nat → DriverStep) (k : Nat) (base : Pose) :
    List (Nat × ℚ) → BatchResult
  | [] => ⟨[], [], base⟩
  | (joint, delta) :: rest =>
    if ¬ (1 ≤ joint ∧ joint ≤ 6) then
      let r := apply_actions_go env k base rest
      ⟨r.writes, .invalidJoint :: r.outcomes, r.final⟩
    else
      match validate_relative base joint delta with
      | (true, _, some target) =>
        let tgt := target.getD (joint - 1) 0
        let e := env k
        if e.sendOk then
          let base' := e.readBack.getD target
          let r := apply_actions_go env (k + 1) base' rest
          ⟨(joint, tgt) :: r.writes, .moved tgt :: r.outcomes, r.final⟩
        else
          let r := apply_actions_go env (k + 1) base rest
          ⟨(joint, tgt) :: r.writes, .driverError :: r.outcomes, r.final⟩
      | _ =>
        let r := apply_actions_go env k base rest
        ⟨r.writes, .blocked :: r.outcomes, r.final⟩

/-- `_apply_actions(pairs)` with `base` the initial read (or fallback). -/
def apply_actions (env : Nat → DriverStep) (base : Pose)
    (pairs : List (Nat × ℚ)) : BatchResult :=
  apply_actions_go env 0 base pairs

/-- Loop body of `_apply_absolute` (lines 415-436): hard `USER_LIMITS`
check only, then issue the move; read fallback is the previous base. -/
def apply_absolute_go (env : Nat → DriverStep) (k : Nat) (base : Pose) :
    List (Nat × ℚ) → BatchResult
  | [] => ⟨[], [], base⟩
  | (joint, target) :: rest =>
    if ¬ (1 ≤ joint ∧ joint ≤ 6) then
      let r := apply_absolute_go env k base rest
      ⟨r.writes, .invalidJoint :: r.outcomes, r.final⟩
    else if ¬ (within (USER_LIMITS joint) target = true) then
      let r := apply_absolute_go env k base rest
      ⟨r.writes, .blocked :: r.outcomes, r.final⟩
    else
      let e := env k
      if e.sendOk then
        let base' := e.readBack.getD base
        let r := apply_absolute_go env (k + 1) base' rest
        ⟨(joint, target) :: r.writes, .moved target :: r.outcomes, r.final⟩
      else
        let r := apply_absolute_go env (k + 1) base rest
        ⟨(joint, target) :: r.writes, .driverError :: r.outcomes, r.final⟩

/-- `_apply_absolute(pairs)` with `base` the initial read (or fallback). -/
def apply_absolute (env : Nat → DriverStep) (base : Pose)
    (pairs : List (Nat × ℚ)) : BatchResult :=
  apply_absolute_go env 0 base pairs

/-! ### Semantic tokens and motion batches -/

/-- `SemanticToken`: the tuples emitted by `parse_commands` and consumed by
`MainWindow._handle_actions`. The mode payload is the Python string. -/
inductive SemanticToken where
  | MODE (m : String)
  | HOME
  | CONFIRM
  | CANCEL
  | CONFREQ (b : Bool)
  | REL (joint : Nat) (delta : ℚ)
  | ABS (joint : Nat) (target : ℚ)
deriving DecidableEq

/-- Queue element: `enqueue_actions` carries relative pairs,
`enqueue_absolute` carries absolute pairs (HOME is enqueued as an absolute
batch of the six home angles by `_enqueue_home`). -/
inductive Batch where
  | applyRelative (pairs : List (Nat × ℚ))
  | applyAbsolute (pairs : List (Nat × ℚ))
deriving DecidableEq

/-- `HOME_ANGLES` constant of `robot_controller.py`. -/
def HOME_ANGLES : List ℚ := [119.17, -94.83, 148.35, 26.71, -75.14, 117.59]

/-- Pairs built by `MainWindow._enqueue_home`. -/
def HOME_PAIRS : List (Nat × ℚ) :=
  (List.range 6).map (fun i => (i + 1, HOME_ANGLES.getD i 0))

/-! ### Pending-confirmation gate (Gui_app_Brazo.py `_handle_actions`) -/

structure GateState where
  require_confirm : Bool
  pending_home : Bool
  pending_abs : List (Nat × ℚ)
deriving DecidableEq

/-- Loop of `_handle_actions`: walks the action list, accumulating the
relative pairs and the unconfirmed absolute pairs, enqueuing batches
produced mid-loop (CONFIRM flushes, ungated HOME). `MODE` only toggles GUI
radio buttons and is a no-op on the gate state. -/
def handle_actions_go (st : GateState) (rel absIns : List (Nat × ℚ))
    (enq : List Batch) : List SemanticToken → GateState × List (Nat × ℚ) × List (Nat × ℚ) × List Batch
  | [] => (st, rel, absIns, enq)
  | .MODE _ :: rest => handle_actions_go st rel absIns enq rest
  | .CONFIRM :: rest =>
    let enq₁ := if st.pending_home then enq ++ [Batch.applyAbsolute HOME_PAIRS] else enq
    let enq₂ := if st.pending_abs ≠ [] then enq₁ ++ [Batch.applyAbsolute st.pending_abs] else enq₁
    handle_actions_go { st with pending_home := false, pending_abs := [] } rel absIns enq₂ rest
  | .CANCEL :: rest =>
    handle_actions_go { st with pending_home := false, pending_abs := [] } rel absIns enq rest
  | .CONFREQ b :: rest =>
    handle_actions_go { st with require_confirm := b } rel absIns enq rest
  | .HOME :: rest =>
    if st.require_confirm then
      handle_actions_go { st with pending_home := true } rel absIns enq rest
    else
      handle_actions_go st rel absIns (enq ++ [Batch.applyAbsolute HOME_PAIRS]) rest
  | .REL j d :: rest =>
    handle_actions_go st (rel ++ [(j, d)]) absIns enq rest
  | .ABS j t :: rest =>
    if st.require_confirm then
      handle_actions_go { st with pending_abs := st.pending_abs ++ [(j, t)] } rel absIns enq rest
    else
      handle_actions_go st rel (absIns ++ [(j, t)]) enq rest

/-- `MainWindow._handle_actions(actions)`: returns the updated gate state and
the batches enqueued to the controller, in enqueue order. After the loop the
collected relative pairs and instant absolute pairs are enqueued as one batch
each when non-empty. An empty action list returns immediately. -/
def handle_actions (st : GateState) (acts : List SemanticToken) : GateState × List Batch :=
  if acts = [] then (st, [])
  else
    ((handle_actions_go st [] [] [] acts).1,
     (handle_actions_go st [] [] [] acts).2.2.2 ++
       (if (handle_actions_go st [] [] [] acts).2.1 ≠ [] then
          [Batch.applyRelative (handle_actions_go st [] [] [] acts).2.1] else []) ++
       (if (handle_actions_go st [] [] [] acts).2.2.1 ≠ [] then
          [Batch.applyAbsolute (handle_actions_go st [] [] [] acts).2.2.1] else []))

/-! ### Worker loop and cooperative stop (robot_controller.py `_loop`/`stop`)

The consumer thread is modelled as a transition system driven by a schedule
of events: `poll` is one round of the `while self._running` check plus the
`q.get(timeout=0.1)` wait, `exec` is one iteration of the per-pair `for`
loop inside `_apply_actions`/`_apply_absolute` (which never reads
`self._running`), and `stopReq` is `stop()` as run by the GUI thread
(clears the flag and drains the queue). -/

structure WorkerState where
  running : Bool
  exited : Bool
  queued : List Batch
  current : Option Batch
  base : Pose
  k : Nat
  writes : List (Nat × ℚ)
deriving DecidableEq

inductive WEvent where
  | poll
  | exec
  | stopReq
deriving DecidableEq

/-- One iteration of the relative per-pair loop (`_apply_actions`). -/
def exec_rel_pair (env : Nat → DriverStep) (s : WorkerState) (j : Nat) (d : ℚ)
    (rest : List (Nat × ℚ)) : WorkerState :=
  if ¬ (1 ≤ j ∧ j ≤ 6) then
    { s with current := some (Batch.applyRelative rest) }
  else
    match validate_relative s.base j d with
    | (true, _, some target) =>
      let tgt := target.getD (j - 1) 0
      let e := env s.k
      if e.sendOk then
        { s with current := some (Batch.applyRelative rest),
                 writes := s.writes ++ [(j, tgt)],
                 base := e.readBack.getD target, k := s.k + 1 }
      else
        { s with current := some (Batch.applyRelative rest),
                 writes := s.writes ++ [(j, tgt)], k := s.k + 1 }
    | _ => { s with current := some (Batch.applyRelative rest) }

/-- One iteration of the absolute per-pair loop (`_apply_absolute`). -/
def exec_abs_pair (env : Nat → DriverStep) (s : WorkerState) (j : Nat) (t : ℚ)
    (rest : List (Nat × ℚ)) : WorkerState :=
  if ¬ (1 ≤ j ∧ j ≤ 6) then
    { s with current := some (Batch.applyAbsolute rest) }
  else if ¬ (within (USER_LIMITS j) t = true) then
    { s with current := some (Batch.applyAbsolute rest) }
  else
    let e := env s.k
    if e.sendOk then
      { s with current := some (Batch.applyAbsolute rest),
               writes := s.writes ++ [(j, t)],
               base := e.readBack.getD s.base, k := s.k + 1 }
    else
      { s with current := some (Batch.applyAbsolute rest),
               writes := s.writes ++ [(j, t)], k := s.k + 1 }

def wstep (env : Nat → DriverStep) (e : WEvent) (s : WorkerState) : WorkerState :=
  match e with
  | .stopReq => { s with running := false, queued := [] }
  | .poll =>
    if s.exited then s
    else match s.current with
      | some _ => s
      | none =>
        if s.running then
          match s.queued with
          | [] => s
          | b :: rest => { s with queued := rest, current := some b }
        else { s with exited := true }
  | .exec =>
    if s.exited then s
    else match s.current with
      | none => s
      | some (Batch.applyRelative []) => { s with current := none }
      | some (Batch.applyAbsolute []) => { s with current := none }
      | some (Batch.applyRelative ((j, d) :: rest)) => exec_rel_pair env s j d rest
      | some (Batch.applyAbsolute ((j, t) :: rest)) => exec_abs_pair env s j t rest

def wrun (env : Nat → DriverStep) (evts : List WEvent) (s : WorkerState) : WorkerState :=
  evts.foldl (fun s e => wstep env e s) s

/-- A driver that always succeeds and whose settle reads always fail
(execution falls back to the computed pose), used for concrete runs. -/
def idealDriver : Nat → DriverStep := fun _ => ⟨true, none⟩

/-- Initial worker state used in the stop counterexample: one relative batch
of two in-limit moves on joint 1 is queued. -/
def stopDemoState : WorkerState :=
  ⟨true, false, [Batch.applyRelative [(1, 10), (1, 10)]], none,
   [0, 0, 0, 0, 0, 0], 0, []⟩

/-! ### Regex engine (Python `re` semantics)

`speech_parser.py` drives everything through `re.search`/`re.finditer`.
The patterns below use only: ordered alternation, concatenation, greedy
`*`/`+`/`?`, character classes, named groups and `\b`. The matcher is a
fuelled CPS backtracker: alternatives are tried left to right, quantifiers
are greedy with backtracking, so `matchAt` returns exactly the match Python
finds at a given start position. -/

inductive RE where
  | eps
  | cls (p : Char → Bool)
  | cat (a b : RE)
  | alt (a b : RE)
  | star (a : RE)
  | opt (a : RE)
  | group (g : Nat) (a : RE)
  | wordB

def chr (c : Char) : RE := .cls (fun d => d == c)

def lit (w : String) : RE := (w.data.map chr).foldr RE.cat RE.eps

def catList (rs : List RE) : RE := rs.foldr RE.cat RE.eps

def altList : List RE → RE
  | [] => RE.cls (fun _ => false)
  | [r] => r
  | r :: rs => RE.alt r (altList rs)

def plus (r : RE) : RE := .cat r (.star r)

/-- Python `\s` on the ASCII text produced by normalization. -/
def isSpaceChar (c : Char) : Bool :=
  c == ' ' || c == '\t' || c == '\n' || c == '\r' || c == '\x0b' || c == '\x0c'

/-- Python `\w` on ASCII text. -/
def isWordChar (c : Char) : Bool := c.isAlpha || c.isDigit || c == '_'

def charAt (s : List Char) (i : Nat) : Option Char := (s.drop i).head?

/-- Python `\b` at offset `i` of `s`. -/
def boundaryAt (s : List Char) (i : Nat) : Bool :=
  let before := if i = 0 then false else
    match charAt s (i - 1) with
    | some c => isWordChar c
    | none => false
  let here := match charAt s i with
    | some c => isWordChar c
    | none => false
  before != here

/-- Captured group spans: (group id, start, stop), most recent first. -/
abbrev Caps := List (Nat × Nat × Nat)

def reMatch (fuel : Nat) (s : List Char) (re : RE) (i : Nat) (caps : Caps)
    (k : Nat → Caps → Option (Nat × Caps)) : Option (Nat × Caps) :=
  match fuel with
  | 0 => none
  | fuel + 1 =>
    match re with
    | .eps => k i caps
    | .cls p =>
      match charAt s i with
      | some c => if p c then k (i + 1) caps else none
      | none => none
    | .cat a b => reMatch fuel s a i caps (fun j caps' => reMatch fuel s b j caps' k)
    | .alt a b =>
      match reMatch fuel s a i caps k with
      | some r => some r
      | none => reMatch fuel s b i caps k
    | .opt a =>
      match reMatch fuel s a i caps k with
      | some r => some r
      | none => k i caps
    | .star a =>
      match reMatch fuel s a i caps
          (fun j caps' => if i < j then reMatch fuel s (.star a) j caps' k else none) with
      | some r => some r
      | none => k i caps
    | .group g a => reMatch fuel s a i caps (fun j caps' => k j ((g, i, j) :: caps'))
    | .wordB => if boundaryAt s i then k i caps else none

structure RMatch where
  mstart : Nat
  mend : Nat
  caps : Caps
deriving DecidableEq

def matchAt (fuel : Nat) (re : RE) (s : List Char) (i : Nat) : Option (Nat × Caps) :=
  reMatch fuel s re i [] (fun j caps => some (j, caps))

/-- Scan start positions `i, i+1, ...` (at most `cnt` of them) for the first
match — the anchored-attempt loop behind `re.search`. -/
def searchCnt (fuel : Nat) (re : RE) (s : List Char) : Nat → Nat → Option RMatch
  | 0, _ => none
  | cnt + 1, i =>
    match matchAt fuel re s i with
    | some (j, caps) => some ⟨i, j, caps⟩
    | none => searchCnt fuel re s cnt (i + 1)

/-- `re.search(pattern, s)`. -/
def reSearch (fuel : Nat) (re : RE) (s : List Char) : Option RMatch :=
  searchCnt fuel re s (s.length + 1) 0

def finditerCnt (fuel : Nat) (re : RE) (s : List Char) : Nat → Nat → List RMatch
  | 0, _ => []
  | cnt + 1, i =>
    match searchCnt fuel re s (s.length + 1 - i) i with
    | none => []
    | some m =>
      let next := if m.mend ≤ m.mstart then m.mstart + 1 else m.mend
      m :: finditerCnt fuel re s cnt next

/-- `re.finditer(pattern, s)`: non-overlapping matches, left to right. -/
def finditer (fuel : Nat) (re : RE) (s : List Char) : List RMatch :=
  finditerCnt fuel re s (s.length + 1) 0

/-- `m.group(g)`: `none` when the group did not participate in the match. -/
def groupStr (s : List Char) (m : RMatch) (g : Nat) : Option (List Char) :=
  match m.caps.find? (fun c => c.1 == g) with
  | some c => some ((s.drop c.2.1).take (c.2.2 - c.2.1))
  | none => none

/-- Fuel bound: ample for the utterance lengths at stake; all universal
theorems below hold for any fuel. -/
def FUEL : Nat := 5000

/-! ### Pattern transcriptions (speech_parser.py lines 48-210) -/

def gVerb : Nat := 1
def gJoint : Nat := 2
def gSign : Nat := 3
def gAng : Nat := 4
def gModeArg : Nat := 5

def wsStar : RE := .star (.cls isSpaceChar)

def wsPlus : RE := plus (.cls isSpaceChar)

def digitRE : RE := .cls Char.isDigit

def lowerRE : RE := .cls (fun c => 'a' ≤ c && c ≤ 'z')

def wordStar : RE := .star (.cls isWordChar)

/-- `VERBS_NEG` set. -/
def VERBS_NEG : List (List Char) :=
  ["decrementa".data, "baja".data, "restale".data, "quita".data,
   "reduce".data, "disminuye".data]

/-- `VERBS_ALL` alternation, in source order. -/
def VERBS_ALL : List String :=
  ["mueve", "mover", "gira", "girar", "rota", "rotar", "ajusta", "ajustar",
   "desplaza", "desplazar", "pon", "coloca", "lleva", "incrementa",
   "decrementa", "sumale", "restale", "sube", "baja"]

def VERBre : RE := altList (VERBS_ALL.map lit)

def verbG : RE := .group gVerb VERBre

def ARTre : RE := .alt (lit "la") (lit "el")

/-- A word with regex-optional final `s` (`juntas?` ≡ `junta` + `s?`). -/
def sWord (w : String) : RE := .cat (lit w) (.opt (chr 's'))

def SYN_WORDSre : RE :=
  altList [sWord "junta", sWord "eslabone", sWord "articulacione",
           sWord "conexione", sWord "link", sWord "posicione"]

def SYNre : RE := .alt SYN_WORDSre (catList [.wordB, chr 'j', .wordB])

def NUMJre : RE := .group gJoint (.alt (plus digitRE) (plus lowerRE))

def CONNre : RE :=
  .opt (catList [wsStar, altList [lit "a", lit "en", lit "hasta", lit "para"], wsStar])

def SIGNre : RE :=
  .opt (.group gSign (altList [.cls (fun c => c == '+' || c == '-'),
    lit "mas", lit "menos", lit "positivo", lit "negativo"]))

def ANGre : RE :=
  .group gAng (.cat (plus digitRE)
    (.opt (.cat (.cls (fun c => c == '.' || c == ',')) (.star digitRE))))

def DEGre : RE := .opt (catList [wsStar, lit "grado", .opt (chr 's')])

def relP1 : RE :=
  catList [.opt (catList [verbG, wsPlus]), .opt (catList [ARTre, wsPlus]),
    SYNre, wsPlus, NUMJre, wsStar, CONNre, SIGNre, wsStar, ANGre, DEGre]

def relP2 : RE :=
  catList [.opt (catList [verbG, wsPlus]), NUMJre, wsPlus,
    .opt (catList [ARTre, wsPlus]), SYNre, wsStar, CONNre, SIGNre, wsStar,
    ANGre, DEGre]

def relP3 : RE :=
  catList [.opt (catList [verbG, wsPlus]), .wordB, chr 'j', wsStar,
    .opt (chr '#'), wsStar, NUMJre, wsStar, SIGNre, wsStar, ANGre, DEGre]

def relP4 : RE :=
  catList [verbG, wsPlus, SIGNre, wsStar, ANGre, DEGre, wsStar, CONNre,
    .opt (catList [ARTre, wsPlus]), SYNre, wsPlus, NUMJre]

def absPA : RE :=
  catList [.opt (catList [verbG, wsPlus]), .opt (catList [ARTre, wsPlus]),
    SYNre, wsPlus, NUMJre, wsStar, CONNre, .opt (catList [ARTre, wsPlus]),
    .opt (.cat (lit "pos") (.opt (lit "icion"))), wsStar, SIGNre, wsStar,
    ANGre, DEGre]

def absPB : RE :=
  catList [.opt (catList [verbG, wsPlus]), .wordB, chr 'j', wsStar,
    .opt (chr '#'), wsStar, NUMJre, wsStar, SIGNre, wsStar, ANGre, DEGre]

def absPC : RE :=
  catList [SIGNre, wsStar, ANGre, DEGre, wsStar, CONNre,
    .opt (catList [ARTre, wsPlus]), SYNre, wsPlus, NUMJre]

def modeRe1 : RE :=
  catList [.wordB, lit "modo", wsPlus,
    .group gModeArg (.alt (lit "absoluto") (lit "relativo")), .wordB]

def modeRe2 : RE :=
  catList [.wordB,
    altList [.cat (lit "cambia") (.opt (chr 'r')),
             .cat (lit "pon") (.opt (lit "er")),
             .cat (lit "usa") (.opt (chr 'r'))],
    wsPlus, .opt (.cat (lit "a") wsPlus),
    .group gModeArg (.alt (lit "absoluto") (lit "relativo")), .wordB]

def homeRe1 : RE :=
  catList [.wordB,
    altList [lit "ir", lit "ve", lit "volver", lit "regresar", lit "llevar",
             lit "poner", lit "mover"],
    wsPlus, .opt (.cat (lit "a") wsPlus),
    altList [lit "home", lit "inicio", lit "origen"], .wordB]

def homeRe2 : RE := catList [.wordB, lit "posicion", wsPlus, lit "inicial", .wordB]

def confirmRe : RE :=
  catList [.wordB,
    altList [.cat (lit "confirm") wordStar, .cat (lit "acept") wordStar,
             .cat (lit "ejecut") wordStar, .cat (lit "proced") wordStar,
             lit "adelante", lit "dale"], .wordB]

def cancelRe : RE :=
  catList [.wordB,
    altList [.cat (lit "cancel") wordStar, .cat (lit "anul") wordStar,
             .cat (lit "rechaz") wordStar,
             catList [lit "mejor", wsPlus, lit "no"],
             catList [lit "det", .cls (fun c => c == 'e' || c == 'é'), chr 'n'],
             lit "para", lit "stop"], .wordB]

def confreqOnRe : RE :=
  catList [.wordB, .alt (lit "activar") (lit "habilitar"), wsPlus,
    lit "confirmaci", .cls (fun c => c == 'o' || c == 'ó'), chr 'n', .wordB]

def confreqOffRe : RE :=
  catList [.wordB, altList [lit "desactivar", lit "deshabilitar", lit "quitar"],
    wsPlus, lit "confirmaci", .cls (fun c => c == 'o' || c == 'ó'), chr 'n', .wordB]

/-! ### Text normalization and the parse pipeline (speech_parser.py 34-243) -/

def asciiLower (c : Char) : Char :=
  if 'A' ≤ c ∧ c ≤ 'Z' then Char.ofNat (c.toNat + 32) else c

/-- Common Spanish accented letters, as `unidecode` transliterates them;
the identity on plain ASCII. -/
def deaccent (c : Char) : Char :=
  if c == 'á' || c == 'Á' then 'a'
  else if c == 'é' || c == 'É' then 'e'
  else if c == 'í' || c == 'Í' then 'i'
  else if c == 'ó' || c == 'Ó' then 'o'
  else if c == 'ú' || c == 'Ú' then 'u'
  else if c == 'ü' || c == 'Ü' then 'u'
  else if c == 'ñ' || c == 'Ñ' then 'n'
  else c

def trimChars (s : List Char) : List Char :=
  ((s.dropWhile isSpaceChar).reverse.dropWhile isSpaceChar).reverse

/-- `_norm(s)`: `unidecode(s).lower().strip()`. -/
def norm (s : List Char) : List Char :=
  trimChars ((s.map deaccent).map asciiLower)

/-- `s.replace("º", " grados").replace("°", " grados")`. -/
def degExpand (s : List Char) : List Char :=
  (s.map (fun c => if c == 'º' || c == '°' then " grados".data else [c])).flatten

/-- `re.sub(r"[,;]", " ", s)`. -/
def punct (s : List Char) : List Char :=
  s.map (fun c => if c == ',' || c == ';' then ' ' else c)

def preprocess (text : List Char) : List Char := punct (degExpand (norm text))

def digitsToNat (cs : List Char) : Nat :=
  cs.foldl (fun n c => 10 * n + (c.toNat - 48)) 0

def ORDINALS : List (List Char × Nat) :=
  [("primer".data, 1), ("primero".data, 1), ("primera".data, 1),
   ("segundo".data, 2), ("segunda".data, 2),
   ("tercero".data, 3), ("tercera".data, 3),
   ("cuarto".data, 4), ("cuarta".data, 4),
   ("quinto".data, 5), ("quinta".data, 5),
   ("sexto".data, 6), ("sexta".data, 6),
   ("septimo".data, 7), ("septima".data, 7),
   ("octavo".data, 8), ("octava".data, 8),
   ("noveno".data, 9), ("novena".data, 9),
   ("decimo".data, 10), ("decima".data, 10)]

def CARDINALS : List (List Char × Nat) :=
  [("un".data, 1), ("uno".data, 1), ("una".data, 1),
   ("dos".data, 2), ("tres".data, 3), ("cuatro".data, 4), ("cinco".data, 5),
   ("seis".data, 6), ("siete".data, 7), ("ocho".data, 8), ("nueve".data, 9),
   ("diez".data, 10)]

/-- `_word_to_int(token)`: digit parse, else ordinal, else cardinal
(`ORDINALS.get(token) or CARDINALS.get(token)`; no value is falsy). -/
def word_to_int (cs : List Char) : Option Nat :=
  if cs ≠ [] ∧ cs.all Char.isDigit then some (digitsToNat cs)
  else
    match List.lookup cs ORDINALS with
    | some n => some n
    | none => List.lookup cs CARDINALS

/-- `MAX_JOINT`. -/
def MAX_JOINT : Nat := 6

/-- Python `float()` on the strings matched by `ANG` (after `,` → `.`):
digits with an optional point and optional fraction digits. -/
def pyFloat (cs : List Char) : Option ℚ :=
  let ip := cs.takeWhile Char.isDigit
  let rest := cs.dropWhile Char.isDigit
  if ip = [] then none
  else
    match rest with
    | [] => some (digitsToNat ip : ℚ)
    | '.' :: frac =>
      if frac.all Char.isDigit then
        some ((digitsToNat ip : ℚ) + (digitsToNat frac : ℚ) / ((10 : ℚ) ^ frac.length))
      else none
    | _ => none

def EXPL_NEG : List (List Char) := ["-".data, "menos".data, "negativo".data]

def EXPL_POS : List (List Char) := ["+".data, "mas".data, "positivo".data]

/-- Sign resolution of the relative loop (lines 233-239): explicit sign
first, then the governing verb's semantics, then default positive. -/
def resolveRelSign (sign verb : List Char) (ang : ℚ) : ℚ :=
  if sign ∈ EXPL_NEG then -|ang|
  else if sign ∈ EXPL_POS then |ang|
  else if verb ∈ VERBS_NEG then -|ang| else |ang|

/-- Sign resolution of the absolute loop (lines 192-196): explicit sign
only; an unsigned angle is left as parsed. -/
def resolveAbsSign (sign : List Char) (ang : ℚ) : ℚ :=
  if sign ∈ EXPL_NEG then -|ang|
  else if sign ∈ EXPL_POS then |ang|
  else ang

/-- Body of the relative emission loop (lines 218-241) for one match. -/
def relEmit (s : List Char) (m : RMatch) : Option SemanticToken :=
  let rawJoint := trimChars ((groupStr s m gJoint).getD [])
  match word_to_int rawJoint with
  | none => none
  | some j =>
    if 1 ≤ j ∧ j ≤ MAX_JOINT then
      let angStr := ((groupStr s m gAng).getD ['0']).map
        (fun c => if c == ',' then '.' else c)
      match pyFloat angStr with
      | none => none
      | some ang =>
        let sign := trimChars ((groupStr s m gSign).getD [])
        let verb := trimChars ((groupStr s m gVerb).getD [])
        some (.REL j (resolveRelSign sign verb ang))
    else none

/-- Body of the absolute emission loop (lines 180-198) for one match. -/
def absEmit (s : List Char) (m : RMatch) : Option SemanticToken :=
  let rawJoint := trimChars ((groupStr s m gJoint).getD [])
  match word_to_int rawJoint with
  | none => none
  | some j =>
    if 1 ≤ j ∧ j ≤ MAX_JOINT then
      let angStr := ((groupStr s m gAng).getD ['0']).map
        (fun c => if c == ',' then '.' else c)
      match pyFloat angStr with
      | none => none
      | some ang =>
        let sign := trimChars ((groupStr s m gSign).getD [])
        some (.ABS j (resolveAbsSign sign ang))
    else none

/-- `matches.sort(key=lambda m: m.start())`: Python's sort is stable, and a
stable sort by one key is unique, so insertion sort computes it. -/
def sortByStart (ms : List RMatch) : List RMatch :=
  List.insertionSort (fun a b => a.mstart ≤ b.mstart) ms

def relMatches (s : List Char) : List RMatch :=
  sortByStart (finditer FUEL relP1 s ++ finditer FUEL relP2 s ++
    finditer FUEL relP3 s ++ finditer FUEL relP4 s)

def absMatches (s : List Char) : List RMatch :=
  sortByStart (finditer FUEL absPA s ++ finditer FUEL absPB s ++
    finditer FUEL absPC s)

def relTokens (s : List Char) : List SemanticToken :=
  (relMatches s).filterMap (relEmit s)

def absTokens (s : List Char) : List SemanticToken :=
  (absMatches s).filterMap (absEmit s)

def startsWithChars : List Char → List Char → Bool
  | _, [] => true
  | [], _ :: _ => false
  | c :: cs, d :: ds => c == d && startsWithChars cs ds

/-- `(m1 or m2).group(1)` of the mode intent, when either pattern hits. -/
def modeGroup (s : List Char) : Option (List Char) :=
  match reSearch FUEL modeRe1 s with
  | some m => groupStr s m gModeArg
  | none =>
    match reSearch FUEL modeRe2 s with
    | some m => groupStr s m gModeArg
    | none => none

/-- One `if <hit>: out.append(<token>)` step of the global-intent scan. -/
def optTok (b : Bool) (t : SemanticToken) : List SemanticToken :=
  if b then [t] else []

/-- The mode token, when either mode pattern hits (lines 124-128). -/
def modeTok (s : List Char) : List SemanticToken :=
  match modeGroup s with
  | some g => [SemanticToken.MODE
      (if startsWithChars g "absol".data then "absolute" else "relative")]
  | none => []

/-- Global-intent detection (lines 122-147), in source scan order: mode,
home, confirm, cancel, confirmation on, confirmation off. -/
def globalTokens (s : List Char) : List SemanticToken :=
  modeTok s ++
  optTok ((reSearch FUEL homeRe1 s).isSome || (reSearch FUEL homeRe2 s).isSome)
    .HOME ++
  optTok (reSearch FUEL confirmRe s).isSome .CONFIRM ++
  optTok (reSearch FUEL cancelRe s).isSome .CANCEL ++
  optTok (reSearch FUEL confreqOnRe s).isSome (.CONFREQ true) ++
  optTok (reSearch FUEL confreqOffRe s).isSome (.CONFREQ false)

/-- `parse_commands(text, mode)`: global intents first (appended in scan
order), then the mode's motion tokens sorted by match position. Any mode
string other than `"absolute"` takes the relative branch. -/
def parse_commands (text : String) (mode : String) : List SemanticToken :=
  if text.data = [] then []
  else
    let s := preprocess text.data
    if mode = "absolute" then globalTokens s ++ absTokens s
    else globalTokens s ++ relTokens s

/-- Spec-side classification: the global-intent tokens. -/
def isGlobalTok : SemanticToken → Bool
  | .MODE _ => true
  | .HOME => true
  | .CONFIRM => true
  | .CANCEL => true
  | .CONFREQ _ => true
  | .REL _ _ => false
  | .ABS _ _ => false

/-- Spec-side classification: the motion tokens. -/
def isMotionTok : SemanticToken → Bool
  | .REL _ _ => true
  | .ABS _ _ => true
  | _ => false

/-! ### Helper lemmas -/

theorem getD_set_self : ∀ (l : List ℚ) (n : Nat) (a : ℚ), n < l.length →
    (l.set n a).getD n 0 = a
  | _ :: _, 0, _, _ => rfl
  | _ :: l, n + 1, a, h => getD_set_self l n a (Nat.lt_of_succ_lt_succ h)

theorem set_getD_self : ∀ (l : List ℚ) (n : Nat), n < l.length →
    l.set n (l.getD n 0) = l
  | _ :: _, 0, _ => rfl
  | b :: l, n + 1, h => by
    simpa using set_getD_self l n (Nat.lt_of_succ_lt_succ h)

theorem apply_absolute_go_writes (env : Nat → DriverStep) (pairs : List (Nat × ℚ)) :
    ∀ (k : Nat) (base : Pose), (apply_absolute_go env k base pairs).writes =
      pairs.filter (fun p => decide (1 ≤ p.1 ∧ p.1 ≤ 6) && within (USER_LIMITS p.1) p.2) := by
  induction pairs with
  | nil => intro k base; rfl
  | cons p rest ih =>
    intro k base
    obtain ⟨j, t⟩ := p
    by_cases h1 : 1 ≤ j ∧ j ≤ 6
    · by_cases h2 : within (USER_LIMITS j) t = true
      · by_cases hs : (env k).sendOk
        · simp [apply_absolute_go, h1, h2, hs, ih]
        · simp [apply_absolute_go, h1, h2, hs, ih]
      · simp [apply_absolute_go, h1, h2, ih]
    · simp [apply_absolute_go, h1, ih]

theorem apply_absolute_go_outcomes (env : Nat → DriverStep) (pairs : List (Nat × ℚ)) :
    ∀ (k : Nat) (base : Pose),
      (apply_absolute_go env k base pairs).outcomes.length = pairs.length := by
  induction pairs with
  | nil => intro k base; rfl
  | cons p rest ih =>
    intro k base
    obtain ⟨j, t⟩ := p
    by_cases h1 : 1 ≤ j ∧ j ≤ 6
    · by_cases h2 : within (USER_LIMITS j) t = true
      · by_cases hs : (env k).sendOk
        · simp [apply_absolute_go, h1, h2, hs, ih]
        · simp [apply_absolute_go, h1, h2, hs, ih]
      · simp [apply_absolute_go, h1, h2, ih]
    · simp [apply_absolute_go, h1, ih]

theorem apply_actions_go_outcomes (env : Nat → DriverStep) (pairs : List (Nat × ℚ)) :
    ∀ (k : Nat) (base : Pose),
      (apply_actions_go env k base pairs).outcomes.length = pairs.length := by
  induction pairs with
  | nil => intro k base; rfl
  | cons p rest ih =>
    intro k base
    obtain ⟨j, d⟩ := p
    by_cases h1 : 1 ≤ j ∧ j ≤ 6
    · rcases hv : validate_relative base j d with ⟨ok, msg, tgt⟩
      cases ok
      · simp [apply_actions_go, h1, hv, ih]
      · cases tgt with
        | none => simp [apply_actions_go, h1, hv, ih]
        | some target =>
          by_cases hs : (env k).sendOk
          · simp [apply_actions_go, h1, hv, hs, ih]
          · simp [apply_actions_go, h1, hv, hs, ih]
    · simp [apply_actions_go, h1, ih]

/-! ### Claim theorems -/

/-- Claim C1: for a 6-element base pose and joint 1..6, the relative-move
validation accepts iff the candidate target is within the joint's user
limits and the current angle is within the limits, or within the
tolerance-widened command window, or below the minimum with a positive
delta, or above the maximum with a negative delta; every rejection carries
no target pose. With `USER_LIMITS[3] = (0, 150)`, base 160° accepts delta
−10 and rejects delta +5. -/
theorem validate_relative_spec (base : Pose) (joint : Nat) (delta : ℚ)
    (hlen : base.length = 6) (hj : 1 ≤ joint ∧ joint ≤ 6) :
    (((validate_relative base joint delta).1 = true) ↔
      (within (USER_LIMITS joint) (base.getD (joint - 1) 0 + delta) = true ∧
        (within (USER_LIMITS joint) (base.getD (joint - 1) 0) = true ∨
         within (COMMAND_WINDOW joint) (base.getD (joint - 1) 0) = true ∨
         (base.getD (joint - 1) 0 < (USER_LIMITS joint).1 ∧ 0 < delta) ∨
         ((USER_LIMITS joint).2 < base.getD (joint - 1) 0 ∧ delta < 0)))) ∧
    ((validate_relative base joint delta).1 = false →
      (validate_relative base joint delta).2.2 = none) ∧
    (within (USER_LIMITS joint) (base.getD (joint - 1) 0 + delta) = true →
      within (USER_LIMITS joint) (base.getD (joint - 1) 0) = false →
      within (COMMAND_WINDOW joint) (base.getD (joint - 1) 0) = true →
      (validate_relative base joint delta).2.1 =
        .windowLeniency joint (base.getD (joint - 1) 0)) ∧
    USER_LIMITS 3 = (0, 150) ∧
    (validate_relative [0, 0, 160, 0, 0, 0] 3 (-10)).1 = true ∧
    (validate_relative [0, 0, 160, 0, 0, 0] 3 5).1 = false := by
  have hlt : joint - 1 < base.length := by omega
  have htgt : (candidate_final base joint delta).getD (joint - 1) 0 =
      base.getD (joint - 1) 0 + delta := getD_set_self base (joint - 1) _ hlt
  refine ⟨?_, ?_, ?_, rfl, by with_unfolding_all decide,
    by with_unfolding_all decide⟩
  · simp only [validate_relative, htgt]
    split_ifs with h1 h2 h3 h4 h5 <;> simp_all
  · simp only [validate_relative, htgt]
    split_ifs <;> simp
  · intro h1 h2 h3
    unfold validate_relative
    rw [htgt, if_neg (not_not_intro h1), if_neg (by rw [h2]; decide), if_pos h3]

/-- Witness for C1 at the spec's leniency example: base reading 152° on
joint 3, delta −10 → target 142° in limits, current angle in the widened
window, accepted. -/
theorem validate_relative_spec_witness :
    (validate_relative [0, 0, 152, 0, 0, 0] 3 (-10)).1 = true :=
  ((validate_relative_spec [0, 0, 152, 0, 0, 0] 3 (-10) rfl
    (by decide)).1).mpr (by with_unfolding_all decide)

/-- Claim C2: the absolute batch only ever issues hardware writes for pairs
passing the joint-index check and the inclusive hard `USER_LIMITS` bound;
a pair whose target is outside the limits is never written, for every
current pose and every driver behavior. The command window plays no role. -/
theorem absolute_hard_bound (env : Nat → DriverStep) (base : Pose)
    (pairs : List (Nat × ℚ)) (j : Nat) (t : ℚ)
    (h : within (USER_LIMITS j) t = false) :
    (apply_absolute env base pairs).writes =
      pairs.filter (fun p => decide (1 ≤ p.1 ∧ p.1 ≤ 6) && within (USER_LIMITS p.1) p.2) ∧
    (j, t) ∉ (apply_absolute env base pairs).writes := by
  have hw := apply_absolute_go_writes env pairs 0 base
  refine ⟨hw, ?_⟩
  intro hmem
  rw [show apply_absolute env base pairs = apply_absolute_go env 0 base pairs from rfl,
    hw] at hmem
  rcases List.mem_filter.mp hmem with ⟨_, hval⟩
  simp only [Bool.and_eq_true] at hval
  exact absurd hval.2 (by simp [h])

/-- Witness for C2: joint 3 target 200° is outside `(0, 150)` and the pair
is absent from the writes of a batch that contains it. -/
theorem absolute_hard_bound_witness :
    within (USER_LIMITS 3) 200 = false ∧
    (3, (200 : ℚ)) ∉ (apply_absolute idealDriver HOME_ANGLES
      [(3, 200), (1, 10)]).writes :=
  ⟨by decide,
   (absolute_hard_bound idealDriver HOME_ANGLES [(3, 200), (1, 10)] 3 200
     (by decide)).2⟩

/-- Claim C7: when both the current reading and the candidate target of a
relative move lie within the joint's user limits, the move validates with
the plain OK verdict, and the inverse move validated from the resulting
target pose is also accepted and lands exactly back on the original pose. -/
theorem relative_roundtrip (base : Pose) (joint : Nat) (d : ℚ)
    (hlen : base.length = 6) (hj : 1 ≤ joint ∧ joint ≤ 6)
    (hcur : within (USER_LIMITS joint) (base.getD (joint - 1) 0) = true)
    (htgt : within (USER_LIMITS joint) (base.getD (joint - 1) 0 + d) = true) :
    validate_relative base joint d = (true, .ok, some (candidate_final base joint d)) ∧
    validate_relative (candidate_final base joint d) joint (-d) =
      (true, .ok, some base) := by
  have hlt : joint - 1 < base.length := by omega
  have e1 : (candidate_final base joint d).getD (joint - 1) 0 =
      base.getD (joint - 1) 0 + d := getD_set_self base (joint - 1) _ hlt
  have e2 : candidate_final (candidate_final base joint d) joint (-d) = base := by
    have h3 : base.getD (joint - 1) 0 + d + -d = base.getD (joint - 1) 0 := by ring
    show (candidate_final base joint d).set (joint - 1)
        ((candidate_final base joint d).getD (joint - 1) 0 + -d) = base
    rw [e1, h3]
    show (base.set (joint - 1) (base.getD (joint - 1) 0 + d)).set (joint - 1)
        (base.getD (joint - 1) 0) = base
    rw [List.set_set]
    exact set_getD_self base (joint - 1) hlt
  constructor
  · unfold validate_relative
    rw [e1, if_neg (not_not_intro htgt), if_pos hcur]
  · unfold validate_relative
    rw [e2, e1, if_neg (not_not_intro hcur), if_pos htgt]

/-- Witness for C7: joint 1 from 10° by +5° and back. -/
theorem relative_roundtrip_witness :
    validate_relative [10, -10, 10, 0, 0, 0] 1 5 =
      (true, .ok, some (candidate_final [10, -10, 10, 0, 0, 0] 1 5)) ∧
    validate_relative (candidate_final [10, -10, 10, 0, 0, 0] 1 5) 1 (-5) =
      (true, .ok, some [10, -10, 10, 0, 0, 0]) :=
  relative_roundtrip [10, -10, 10, 0, 0, 0] 1 5 rfl (by decide)
    (by with_unfolding_all decide) (by with_unfolding_all decide)

/-- Claim C8: neither a validation rejection nor a driver error on one pair
aborts a batch — for every driver behavior, both batch loops produce one
outcome per input pair, in order (the loops always reach the end of the
list). -/
theorem batch_no_abort (env : Nat → DriverStep) (base : Pose)
    (pairs : List (Nat × ℚ)) :
    (apply_actions env base pairs).outcomes.length = pairs.length ∧
    (apply_absolute env base pairs).outcomes.length = pairs.length :=
  ⟨apply_actions_go_outcomes env pairs 0 base,
   apply_absolute_go_outcomes env pairs 0 base⟩

/-- Claim C3: with confirmation required, absolute move tokens enqueue
nothing and accumulate as pending pairs; a Confirm then enqueues exactly one
absolute batch with all pending pairs in insertion order and clears the
pending list; a Cancel instead clears the pending state with zero batches
ever enqueued. -/
theorem confirmation_roundtrip :
    handle_actions ⟨true, false, []⟩
      [.ABS 1 90, .ABS 2 (-30)] =
      (⟨true, false, [(1, 90), (2, -30)]⟩, []) ∧
    handle_actions ⟨true, false, [(1, 90), (2, -30)]⟩ [.CONFIRM] =
      (⟨true, false, []⟩, [Batch.applyAbsolute [(1, 90), (2, -30)]]) ∧
    handle_actions ⟨true, false, [(1, 90), (2, -30)]⟩ [.CANCEL] =
      (⟨true, false, []⟩, []) := by
  refine ⟨by decide, by decide, by decide⟩

/-- Claim C6 helper: walking a pure run of REL tokens only appends to the
relative accumulator. -/
theorem handle_actions_go_rel (pairs : List (Nat × ℚ)) :
    ∀ (st : GateState) (rel absIns : List (Nat × ℚ)) (enq : List Batch),
      handle_actions_go st rel absIns enq
        (pairs.map fun p => SemanticToken.REL p.1 p.2) =
        (st, rel ++ pairs, absIns, enq) := by
  induction pairs with
  | nil => intro st rel absIns enq; simp [handle_actions_go]
  | cons p rest ih =>
    intro st rel absIns enq
    obtain ⟨j, d⟩ := p
    show handle_actions_go st (rel ++ [(j, d)]) absIns enq
        (rest.map fun p => SemanticToken.REL p.1 p.2) =
      (st, rel ++ (j, d) :: rest, absIns, enq)
    rw [ih]
    simp

/-- Claim C6: a sequence of RelativeMove tokens leaves the gate state
(`require_confirm`, `pending_home`, `pending_absolute`) untouched for every
starting state, and (when non-empty) is forwarded immediately as exactly one
relative batch, regardless of `require_confirm`. -/
theorem relative_never_gated (st : GateState) (pairs : List (Nat × ℚ)) :
    (handle_actions st (pairs.map fun p => SemanticToken.REL p.1 p.2)).1 = st ∧
    (pairs ≠ [] →
      (handle_actions st (pairs.map fun p => SemanticToken.REL p.1 p.2)).2 =
        [Batch.applyRelative pairs]) := by
  cases pairs with
  | nil => exact ⟨rfl, fun h => absurd rfl h⟩
  | cons p rest =>
    have hne : (List.map (fun p => SemanticToken.REL p.1 p.2) (p :: rest)) ≠ [] := by
      simp
    have h := handle_actions_go_rel (p :: rest) st [] [] []
    constructor
    · simp only [handle_actions, if_neg hne, h]
    · intro _
      simp only [handle_actions, if_neg hne, h]
      simp

/-- Witness for C6: one relative pair with confirmation required and stale
pending absolute state. -/
theorem relative_never_gated_witness :
    (handle_actions ⟨true, true, [(1, 1)]⟩
      ([((2 : Nat), (5 : ℚ))].map fun p => SemanticToken.REL p.1 p.2)).1 =
      ⟨true, true, [(1, 1)]⟩ ∧
    (handle_actions ⟨true, true, [(1, 1)]⟩
      ([((2 : Nat), (5 : ℚ))].map fun p => SemanticToken.REL p.1 p.2)).2 =
      [Batch.applyRelative [(2, 5)]] :=
  ⟨(relative_never_gated ⟨true, true, [(1, 1)]⟩ [(2, 5)]).1,
   (relative_never_gated ⟨true, true, [(1, 1)]⟩ [(2, 5)]).2 (by decide)⟩

/-- Claim C9 counterexample: one relative batch of two valid moves is
dequeued; the first move executes, then a stop request lands (flag cleared,
queue drained), and the next per-pair step still issues a hardware write —
the per-joint loop never polls the stop flag. -/
theorem stop_during_batch_cex :
    (wrun idealDriver [.poll, .exec, .stopReq] stopDemoState).running = false ∧
    (wrun idealDriver [.poll, .exec, .stopReq] stopDemoState).writes.length = 1 ∧
    (wrun idealDriver [.poll, .exec, .stopReq, .exec] stopDemoState).writes.length = 2 := by
  refine ⟨rfl, by with_unfolding_all decide, by with_unfolding_all decide⟩

/-- Claim C9 (amended): `stop()` clears the running flag and drains the
queue without issuing writes; a worker blocked at the queue wait with the
flag cleared exits; but one per-pair execution step behaves identically
whatever the value of the running flag — the stop flag is polled only
between queue waits, never between the per-joint moves of a batch. -/
theorem worker_stop_amended (env : Nat → DriverStep) (s : WorkerState) :
    (wstep env .stopReq s).running = false ∧
    (wstep env .stopReq s).queued = [] ∧
    (wstep env .stopReq s).writes = s.writes ∧
    (s.exited = false → s.current = none → s.running = false →
      wstep env .poll s = { s with exited := true }) ∧
    (∀ b, wstep env .exec { s with running := b } =
      { wstep env .exec s with running := b }) := by
  refine ⟨rfl, rfl, rfl, ?_, ?_⟩
  · intro he hc hr
    simp [wstep, he, hc, hr]
  · intro b
    cases s with
    | mk running exited queued current base k writes =>
      cases exited
      · cases current with
        | none => rfl
        | some cb =>
          cases cb with
          | applyRelative ps =>
            cases ps with
            | nil => rfl
            | cons p rest =>
              obtain ⟨j, d⟩ := p
              simp only [wstep, exec_rel_pair]
              split_ifs <;> (try rfl) <;>
                (rcases validate_relative base j d with ⟨ok, msg, tgt⟩ <;>
                  cases ok <;> (try rfl) <;> cases tgt <;> (try rfl) <;>
                  split_ifs <;> rfl)
          | applyAbsolute ps =>
            cases ps with
            | nil => rfl
            | cons p rest =>
              obtain ⟨j, t⟩ := p
              simp only [wstep, exec_abs_pair]
              split_ifs <;> rfl
      · rfl

/-- Witness for C9's amended theorem: an idle worker with the flag cleared
exits at its next poll. -/
theorem worker_stop_amended_witness :
    wstep idealDriver .poll ⟨false, false, [], none, [], 0, []⟩ =
      { (⟨false, false, [], none, [], 0, []⟩ : WorkerState) with exited := true } :=
  (worker_stop_amended idealDriver ⟨false, false, [], none, [], 0, []⟩).2.2.2.1
    rfl rfl rfl

/-- C10 helper: members of an `optTok` singleton are that token. -/
theorem mem_optTok (b : Bool) (tok t : SemanticToken) (h : t ∈ optTok b tok) :
    t = tok := by
  unfold optTok at h
  split at h <;> simp_all

/-- C10 helper: the mode list only holds MODE tokens. -/
theorem mem_modeTok (s : List Char) (t : SemanticToken) (h : t ∈ modeTok s) :
    ∃ m, t = .MODE m := by
  unfold modeTok at h
  split at h <;> simp_all

/-- C10 helper: every token of the global scan is a global-intent token. -/
theorem globalTokens_global (s : List Char) (t : SemanticToken)
    (h : t ∈ globalTokens s) : isGlobalTok t = true := by
  unfold globalTokens at h
  simp only [List.mem_append] at h
  rcases h with ((((h | h) | h) | h) | h) | h
  · obtain ⟨m, rfl⟩ := mem_modeTok s t h; rfl
  all_goals rw [mem_optTok _ _ _ h]; rfl

/-- C10 helper: the relative emission only produces REL tokens. -/
theorem relEmit_motion (s : List Char) (m : RMatch) (t : SemanticToken)
    (h : relEmit s m = some t) : isMotionTok t = true := by
  unfold relEmit at h
  simp only [] at h
  split at h
  · exact absurd h (by simp)
  · split at h
    · split at h
      · exact absurd h (by simp)
      · simp only [Option.some.injEq] at h
        rw [← h]; rfl
    · exact absurd h (by simp)

/-- C10 helper: the absolute emission only produces ABS tokens. -/
theorem absEmit_motion (s : List Char) (m : RMatch) (t : SemanticToken)
    (h : absEmit s m = some t) : isMotionTok t = true := by
  unfold absEmit at h
  simp only [] at h
  split at h
  · exact absurd h (by simp)
  · split at h
    · split at h
      · exact absurd h (by simp)
      · simp only [Option.some.injEq] at h
        rw [← h]; rfl
    · exact absurd h (by simp)

/-- C10 helper: `sortByStart` sorts by match start position. -/
theorem sorted_sortByStart (ms : List RMatch) :
    List.Sorted (fun a b => a.mstart ≤ b.mstart) (sortByStart ms) := by
  haveI : IsTotal RMatch (fun a b => a.mstart ≤ b.mstart) :=
    ⟨fun a b => Nat.le_total a.mstart b.mstart⟩
  haveI : IsTrans RMatch (fun a b => a.mstart ≤ b.mstart) :=
    ⟨fun _ _ _ => Nat.le_trans⟩
  exact List.sorted_insertionSort _ ms

/-- Claim C4: in the relative sign resolution (used for every relative-mode
match), when no explicit sign token was captured, a governing verb from the
fixed decreasing set `VERBS_NEG` forces the emitted delta negative
(`-|ang| ≤ 0`); an explicit sign token overrides the verb either way; with
neither, the delta defaults to positive `|ang|`. -/
theorem neg_verbs_force_negative (sign verb : List Char) (ang : ℚ) :
    (sign ∉ EXPL_NEG → sign ∉ EXPL_POS → verb ∈ VERBS_NEG →
      resolveRelSign sign verb ang = -|ang| ∧ resolveRelSign sign verb ang ≤ 0) ∧
    (sign ∈ EXPL_NEG → resolveRelSign sign verb ang = -|ang|) ∧
    (sign ∈ EXPL_POS → sign ∉ EXPL_NEG → resolveRelSign sign verb ang = |ang|) ∧
    (sign ∉ EXPL_NEG → sign ∉ EXPL_POS → verb ∉ VERBS_NEG →
      resolveRelSign sign verb ang = |ang|) ∧
    (∀ (s : List Char) (m : RMatch) (j : Nat) (δ : ℚ),
      relEmit s m = some (.REL j δ) →
      trimChars ((groupStr s m gSign).getD []) ∉ EXPL_NEG →
      trimChars ((groupStr s m gSign).getD []) ∉ EXPL_POS →
      trimChars ((groupStr s m gVerb).getD []) ∈ VERBS_NEG → δ ≤ 0) := by
  have core : ∀ (sg vb : List Char) (a : ℚ), sg ∉ EXPL_NEG → sg ∉ EXPL_POS →
      vb ∈ VERBS_NEG → resolveRelSign sg vb a = -|a| ∧ resolveRelSign sg vb a ≤ 0 := by
    intro sg vb a h1 h2 h3
    unfold resolveRelSign
    rw [if_neg h1, if_neg h2, if_pos h3]
    exact ⟨rfl, neg_nonpos.mpr (abs_nonneg a)⟩
  refine ⟨core sign verb ang, fun h => ?_, fun h h' => ?_, fun h1 h2 h3 => ?_,
    ?_⟩
  · unfold resolveRelSign; rw [if_pos h]
  · unfold resolveRelSign; rw [if_neg h', if_pos h]
  · unfold resolveRelSign; rw [if_neg h1, if_neg h2, if_neg h3]
  · intro s m j δ h hs hp hv
    unfold relEmit at h
    simp only [] at h
    split at h
    · exact absurd h (by simp)
    · split at h
      · split at h
        · exact absurd h (by simp)
        · simp only [Option.some.injEq, SemanticToken.REL.injEq] at h
          rw [← h.2]
          exact (core _ _ _ hs hp hv).2
      · exact absurd h (by simp)

/-- Witness for C4: verb "baja", no sign, magnitude 20. -/
theorem neg_verbs_force_negative_witness :
    resolveRelSign [] "baja".data 20 = -|(20 : ℚ)| ∧
    resolveRelSign [] "baja".data 20 ≤ 0 :=
  (neg_verbs_force_negative [] "baja".data 20).1 (by decide) (by decide)
    (by decide)

/-- Claim C5: the three reference utterances parse to exactly the specified
tokens: relative "mueve la junta 3 a 15 grados" → `REL 3 15`, relative
"baja la junta 2 20 grados" → `REL 2 (-20)` (verb-forced negative), and
absolute "junta 4 a posicion 30" → `ABS 4 30`. -/
theorem reference_utterances :
    parse_commands "mueve la junta 3 a 15 grados" "relative" =
      [.REL 3 15] ∧
    parse_commands "baja la junta 2 20 grados" "relative" =
      [.REL 2 (-20)] ∧
    parse_commands "junta 4 a posicion 30" "absolute" =
      [.ABS 4 30] := by
  refine ⟨by decide, by decide, by decide⟩

/-- Claim C10: for every text and mode, the parser output is the global
tokens (in scan order) followed by the motion tokens, which are the
emissions of the mode's matches sorted by their left-to-right start
positions in the normalized text. -/
theorem parse_globals_before_motions (text mode : String) :
    ∃ gs ms, parse_commands text mode = gs ++ ms ∧
      (∀ t ∈ gs, isGlobalTok t = true) ∧
      (∀ t ∈ ms, isMotionTok t = true) ∧
      ∃ mms, List.Sorted (fun a b => a.mstart ≤ b.mstart) mms ∧
        ms = mms.filterMap
          (if mode = "absolute" then absEmit (preprocess text.data)
           else relEmit (preprocess text.data)) := by
  by_cases ht : text.data = []
  · refine ⟨[], [], by simp [parse_commands, ht], by simp, by simp, [],
      List.sorted_nil, by simp⟩
  · by_cases hm : mode = "absolute"
    · refine ⟨globalTokens (preprocess text.data), absTokens (preprocess text.data),
        by simp [parse_commands, ht, hm], fun t h => globalTokens_global _ t h,
        ?_, absMatches (preprocess text.data), sorted_sortByStart _, ?_⟩
      · intro t h
        rcases List.mem_filterMap.mp h with ⟨m, _, h2⟩
        exact absEmit_motion _ m t h2
      · simp [absTokens, hm]
    · refine ⟨globalTokens (preprocess text.data), relTokens (preprocess text.data),
        by simp [parse_commands, ht, hm], fun t h => globalTokens_global _ t h,
        ?_, relMatches (preprocess text.data), sorted_sortByStart _, ?_⟩
      · intro t h
        rcases List.mem_filterMap.mp h with ⟨m, _, h2⟩
        exact relEmit_motion _ m t h2
      · simp [relTokens, hm]
